import Mathlib

/-!
Shallow embedding of the scene-timing, subtitle-segmentation, script-parsing
and time-formatting core of the create-videos-workflow repository
(src/scripts/04_image_prompts.py, src/scripts/06_subtitles.py,
src/scripts/utils.py), together with theorems settling the specification
claims about it.

Modelling conventions:
* Python floats are modelled as exact rationals (ℚ); `int(x)` is truncation
  toward zero (`pyInt`), `x // y` is float floor-division (`pyFloorDiv`),
  `x % y` is Python's sign-follows-divisor modulo (`pymod`).
* Python list indexing `l[i]`, including negative indices, is `pyIndex`;
  an out-of-range access is the `PyErr.indexError` outcome, division by
  zero is `PyErr.zeroDivision`; functions that can raise return `Except`.
* A scene dict `{"numero": n, "timing": f"{a}-{b}s", "naracao": t,
  "visual": v, "duracao": d}` is the record `Scene`; the timing string is
  represented by its two integer components `timingStart`/`timingEnd`,
  since `f"{a}-{b}s"` encodes the pair `(a, b)` injectively, and `duracao`
  is `none` for scene dicts built without that key.
-/

/-- Python `int(x)` on a float: truncation toward zero. -/
def pyInt (q : ℚ) : Int := if 0 ≤ q then ⌊q⌋ else ⌈q⌉

/-- Python float floor-division `a // b` (result is again a float). -/
def pyFloorDiv (a b : ℚ) : ℚ := (⌊a / b⌋ : Int)

/-- Python float modulo `a % b`: the remainder has the divisor's sign. -/
def pymod (a b : ℚ) : ℚ := a - b * (⌊a / b⌋ : Int)

/-- Python list indexing `l[i]` with negative-index wrap-around; `none`
models the `IndexError` raised on an out-of-range index. -/
def pyIndex {α : Type} (l : List α) (i : Int) : Option α :=
  let j : Int := if i < 0 then (l.length : Int) + i else i
  if 0 ≤ j then l[j.toNat]? else none

/-- The runtime errors the embedded code can raise. -/
inductive PyErr
  | indexError
  | zeroDivision
deriving DecidableEq

/-- A scene dict as built by `extract_visuals_from_script` /
`redistribute_scenes` in src/scripts/04_image_prompts.py. -/
structure Scene where
  numero : Int
  timingStart : Int
  timingEnd : Int
  naracao : String
  visual : String
  duracao : Option Int
deriving DecidableEq

/-- src/scripts/04_image_prompts.py, `calculate_optimal_scenes`
(lines 51-61): step function from audio duration to scene count. -/
def calculate_optimal_scenes (audio_duration : ℚ) : Int :=
  if audio_duration ≤ 30 then 2
  else if audio_duration ≤ 60 then max 3 (pyInt (audio_duration / 15))
  else if audio_duration ≤ 120 then max 5 (pyInt (audio_duration / 12))
  else max 8 (pyInt (audio_duration / 10))

/-- src/scripts/04_image_prompts.py, `redistribute_scenes` (lines 64-89).
The early identity return, the division `audio_duration / target_count`
(raising `ZeroDivisionError` when `target_count == 0`), and the loop
`for i in range(target_count)` reading
`original_scenes[min(i, len(original_scenes) - 1)]` (raising `IndexError`
when the list is empty) are modelled exactly; `range` of a non-positive
count is empty. -/
def redistribute_scenes (original_scenes : List Scene) (target_count : Int)
    (audio_duration : ℚ) : Except PyErr (List Scene) :=
  if (original_scenes.length : Int) = target_count then .ok original_scenes
  else if target_count = 0 then .error .zeroDivision
  else
    let time_per_scene : ℚ := audio_duration / (target_count : ℚ)
    (List.range target_count.toNat).mapM (fun (i : Nat) =>
      let start_time := pyInt ((i : ℚ) * time_per_scene)
      let end_time := pyInt (((i : ℚ) + 1) * time_per_scene)
      match pyIndex original_scenes (min (i : Int) ((original_scenes.length : Int) - 1)) with
      | some base_scene =>
          .ok { numero := (i : Int) + 1
                timingStart := start_time
                timingEnd := end_time
                naracao := base_scene.naracao
                visual := base_scene.visual
                duracao := some (pyInt time_per_scene) }
      | none => .error .indexError)

/-- Splits a character list at whitespace runs, dropping empty pieces:
the helper behind Python `str.split()` with no argument. -/
def splitWs (cs : List Char) (cur : List Char) : List (List Char) :=
  match cs with
  | [] => if cur = [] then [] else [cur.reverse]
  | c :: rest =>
    if c.isWhitespace then
      (if cur = [] then splitWs rest [] else cur.reverse :: splitWs rest [])
    else splitWs rest (c :: cur)

/-- Python `text.split()`: the maximal whitespace-free words of `text`. -/
def pySplit (s : String) : List String := (splitWs s.data []).map String.mk

/-- Loop body of `split_text_into_lines` (src/scripts/06_subtitles.py,
lines 71-87): greedy packing of `words` into `lines`, carrying the
mutable `current_line`; the trailing non-empty `current_line` is flushed
at the end. -/
def splitLinesGo (max_chars : Nat) : List String → String → List String → List String
  | [], current_line, lines =>
      if current_line = "" then lines else lines ++ [current_line]
  | word :: words, current_line, lines =>
      if current_line.length + word.length + 1 ≤ max_chars then
        if current_line = "" then splitLinesGo max_chars words word lines
        else splitLinesGo max_chars words (current_line ++ " " ++ word) lines
      else
        if current_line = "" then splitLinesGo max_chars words word lines
        else splitLinesGo max_chars words word (lines ++ [current_line])

/-- src/scripts/06_subtitles.py, `split_text_into_lines` (lines 68-89). -/
def split_text_into_lines (text : String) (max_chars : Nat := 42) : List String :=
  splitLinesGo max_chars (pySplit text) "" []

/-- A scene dict as built by `extract_scenes_with_timing`
(src/scripts/06_subtitles.py, lines 33-38). -/
structure TScene where
  numero : Nat
  start_seconds : Nat
  end_seconds : Nat
  naracao : String
deriving DecidableEq

/-- One line of a script document, at token level: `heading n s e` stands
for a line on which `re.search` finds the scene-heading pattern
with digit groups `n`, `s`, `e`; `narration t` for a line starting with
the narration label, `t` being the stripped remainder; `other` for any
line matching neither. -/
inductive Line
  | heading (numero start_seconds end_seconds : Nat)
  | narration (text : String)
  | other
deriving DecidableEq

/-- Loop of `extract_scenes_with_timing` (src/scripts/06_subtitles.py,
lines 26-45): on a heading the in-progress scene is flushed and a fresh
one opened; a narration line overwrites the open scene's `naracao`; the
last open scene is flushed after the loop. -/
def extractGo : List Line → Option TScene → List TScene
  | [], current_scene => current_scene.toList
  | Line.heading n s e :: rest, current_scene =>
      current_scene.toList ++ extractGo rest (some ⟨n, s, e, ""⟩)
  | Line.narration t :: rest, current_scene =>
      extractGo rest (current_scene.map fun c => { c with naracao := t })
  | Line.other :: rest, current_scene => extractGo rest current_scene

/-- src/scripts/06_subtitles.py, `extract_scenes_with_timing`
(lines 19-47). -/
def extract_scenes_with_timing (doc : List Line) : List TScene :=
  extractGo doc none

/-- One subtitle cue as emitted by the loop of `create_subtitles`
(src/scripts/06_subtitles.py, lines 129-140): its SRT sequence number,
its span, and its text. -/
structure Cue where
  num : Nat
  lineStart : ℚ
  lineEnd : ℚ
  text : String

/-- Inner loop of `create_subtitles` (src/scripts/06_subtitles.py,
lines 116-140) for the scene at 1-based position `i`: the cues emitted
for that scene. -/
def sceneCues (i : Nat) (scene : TScene) : List Cue :=
  let lines := split_text_into_lines scene.naracao
  let start_sec : ℚ := scene.start_seconds
  let end_sec : ℚ := scene.end_seconds
  let total_duration := end_sec - start_sec
  if 0 < lines.length then
    let time_per_line := total_duration / (lines.length : ℚ)
    lines.enum.map (fun jl =>
      { num := i * 10 + jl.1
        lineStart := start_sec + (jl.1 : ℚ) * time_per_line
        lineEnd := start_sec + ((jl.1 : ℚ) + 1) * time_per_line
        text := jl.2 })
  else []

/-- The full cue list of `create_subtitles` (src/scripts/06_subtitles.py,
lines 112-140): scenes are processed with `enumerate(scenes, 1)`; the SRT
and VTT documents are renderings of this list. -/
def create_subtitles_cues (scenes : List TScene) : List Cue :=
  (scenes.enum.map (fun isc => sceneCues (isc.1 + 1) isc.2)).flatten

/-- Python `f"{n:0Wd}"`: decimal rendering zero-padded to width `width`,
the sign counting toward the width. -/
def pyFmt0 (width : Nat) (n : Int) : String :=
  let sign := if n < 0 then "-" else ""
  let digits := toString n.natAbs
  sign ++ String.mk (List.replicate (width - (digits.length + sign.length)) '0') ++ digits

/-- src/scripts/06_subtitles.py, `format_srt_time` (lines 50-56). -/
def format_srt_time (seconds : ℚ) : String :=
  let hours := pyInt (pyFloorDiv seconds 3600)
  let minutes := pyInt (pyFloorDiv (pymod seconds 3600) 60)
  let secs := pyInt (pymod seconds 60)
  let millis := pyInt (pymod seconds 1 * 1000)
  pyFmt0 2 hours ++ ":" ++ pyFmt0 2 minutes ++ ":" ++ pyFmt0 2 secs ++ "," ++ pyFmt0 3 millis

/-- src/scripts/06_subtitles.py, `format_vtt_time` (lines 59-65). -/
def format_vtt_time (seconds : ℚ) : String :=
  let hours := pyInt (pyFloorDiv seconds 3600)
  let minutes := pyInt (pyFloorDiv (pymod seconds 3600) 60)
  let secs := pyInt (pymod seconds 60)
  let millis := pyInt (pymod seconds 1 * 1000)
  pyFmt0 2 hours ++ ":" ++ pyFmt0 2 minutes ++ ":" ++ pyFmt0 2 secs ++ "." ++ pyFmt0 3 millis

/-- src/scripts/utils.py, `timestamp_to_srt_time` (lines 278-284); the
body is a verbatim copy of `format_srt_time`. -/
def timestamp_to_srt_time (seconds : ℚ) : String :=
  let hours := pyInt (pyFloorDiv seconds 3600)
  let minutes := pyInt (pyFloorDiv (pymod seconds 3600) 60)
  let secs := pyInt (pymod seconds 60)
  let millis := pyInt (pymod seconds 1 * 1000)
  pyFmt0 2 hours ++ ":" ++ pyFmt0 2 minutes ++ ":" ++ pyFmt0 2 secs ++ "," ++ pyFmt0 3 millis

/-! ## Helper lemmas -/

/-- A default scene record, used only as the unused fallback of `List.getD`. -/
def defaultScene : Scene := { numero := 0, timingStart := 0, timingEnd := 0,
                              naracao := "", visual := "", duracao := none }

lemma pyInt_of_nonneg {q : ℚ} (h : 0 ≤ q) : pyInt q = ⌊q⌋ := by
  simp [pyInt, h]

lemma mapM_eq_ok {α β : Type} (f : α → Except PyErr β) (g : α → β) :
    ∀ l : List α, (∀ a ∈ l, f a = .ok (g a)) → l.mapM f = .ok (l.map g) := by
  intro l
  induction l with
  | nil => intro _; rfl
  | cons a t ih =>
    intro h
    rw [List.mapM_cons, h a (by simp), ih (fun x hx => h x (by simp [hx]))]
    rfl

lemma mapM_err_head {α β : Type} (f : α → Except PyErr β) (a : α) (l : List α)
    (e : PyErr) (h : f a = .error e) : (a :: l).mapM f = .error e := by
  rw [List.mapM_cons, h]
  rfl

/-- The scene built by iteration `i` of the loop of `redistribute_scenes`,
for a non-empty original list and a non-zero target. -/
def redistributedScene (original_scenes : List Scene) (target_count : Int)
    (audio_duration : ℚ) (i : Nat) : Scene :=
  let time_per_scene : ℚ := audio_duration / (target_count : ℚ)
  { numero := (i : Int) + 1
    timingStart := pyInt ((i : ℚ) * time_per_scene)
    timingEnd := pyInt (((i : ℚ) + 1) * time_per_scene)
    naracao := (original_scenes.getD (min i (original_scenes.length - 1)) defaultScene).naracao
    visual := (original_scenes.getD (min i (original_scenes.length - 1)) defaultScene).visual
    duracao := some (pyInt time_per_scene) }

lemma redistribute_scenes_eq_map (original_scenes : List Scene) (target_count : Int)
    (audio_duration : ℚ) (hne : original_scenes ≠ []) (hk : 1 ≤ target_count)
    (hlen : (original_scenes.length : Int) ≠ target_count) :
    redistribute_scenes original_scenes target_count audio_duration =
      .ok ((List.range target_count.toNat).map
        (redistributedScene original_scenes target_count audio_duration)) := by
  have hlen0 : 0 < original_scenes.length := List.length_pos.mpr hne
  rw [redistribute_scenes, if_neg hlen, if_neg (by omega)]
  apply mapM_eq_ok
  intro i _
  have hmin : min (i : Int) ((original_scenes.length : Int) - 1) =
      ((min i (original_scenes.length - 1) : Nat) : Int) := by
    omega
  have hlt : min i (original_scenes.length - 1) < original_scenes.length := by
    omega
  have hidx : pyIndex original_scenes (min (i : Int) ((original_scenes.length : Int) - 1)) =
      some (original_scenes.getD (min i (original_scenes.length - 1)) defaultScene) := by
    rw [pyIndex, hmin]
    have h0 : ¬ ((min i (original_scenes.length - 1) : Nat) : Int) < 0 := by omega
    simp only [h0, if_false, Int.toNat_ofNat]
    rw [if_pos (by omega)]
    rw [List.getElem?_eq_getElem hlt, List.getD_eq_getElem _ _ hlt]
  simp only [hidx, redistributedScene]

/-! ## Claims -/

/-- C3: `redistribute_scenes` with `target_count` equal to the length of the
original list returns that very list, with no recomputation. -/
theorem C3_redistribute_identity (original_scenes : List Scene) (target_count : Int)
    (audio_duration : ℚ) (h : (original_scenes.length : Int) = target_count) :
    redistribute_scenes original_scenes target_count audio_duration =
      .ok original_scenes := by
  rw [redistribute_scenes, if_pos h]

/-- Witness for C3 at a concrete input. -/
theorem C3_redistribute_identity_witness :
    redistribute_scenes [defaultScene] 1 10 = .ok [defaultScene] :=
  C3_redistribute_identity [defaultScene] 1 10 (by decide)

/-- C10: `redistribute_scenes` on an empty original list with a positive
target fails with an index error (the loop reads
`original_scenes[min(i, -1)]`), so a non-empty original is an unstated
precondition whenever the identity case does not apply. -/
theorem C10_redistribute_empty_original (target_count : Int) (audio_duration : ℚ)
    (h : 1 ≤ target_count) :
    redistribute_scenes [] target_count audio_duration = .error .indexError := by
  rw [redistribute_scenes, if_neg (by simpa using by omega), if_neg (by omega)]
  obtain ⟨tl, hrange⟩ : ∃ tl, List.range target_count.toNat = 0 :: tl := by
    have h1 : target_count.toNat = (target_count.toNat - 1) + 1 := by omega
    exact ⟨_, by rw [h1, List.range_succ_eq_map]⟩
  rw [hrange]
  apply mapM_err_head
  rfl

/-- Witness for C10 at a concrete input. -/
theorem C10_redistribute_empty_original_witness :
    redistribute_scenes [] 3 (10 : ℚ) = .error .indexError :=
  C10_redistribute_empty_original 3 10 (by decide)

/-- C6 counterexample: the claim says calls with `target_count <= 0` or
`audio_duration <= 0` are rejected with a typed validation error and never
yield a zero-length list nor reach the division; in fact `target_count = -1`
returns a zero-length scene list with no error, and `target_count = 0` on a
non-empty original reaches the division by zero. -/
theorem C6_counterexample :
    redistribute_scenes [defaultScene] (-1) 10 = .ok [] ∧
    redistribute_scenes [defaultScene] 0 10 = .error .zeroDivision := by
  constructor
  · rw [redistribute_scenes, if_neg (by decide), if_neg (by decide)]
    rfl
  · rw [redistribute_scenes, if_neg (by decide), if_pos rfl]

/-- C6 amended: `redistribute_scenes` performs no input validation.
A negative `target_count` yields the empty scene list without any error;
`target_count = 0` raises `ZeroDivisionError` when the original list is
non-empty but silently returns the empty list (identity case) when it is
empty; a negative `audio_duration` is likewise accepted and produces
scenes with non-positive span bounds. -/
theorem C6_redistribute_no_validation :
    ∀ (original_scenes : List Scene) (audio_duration : ℚ) (target_count : Int),
    (target_count < 0 →
      redistribute_scenes original_scenes target_count audio_duration = .ok []) ∧
    (original_scenes ≠ [] →
      redistribute_scenes original_scenes 0 audio_duration = .error .zeroDivision) ∧
    redistribute_scenes [] 0 audio_duration = .ok [] ∧
    redistribute_scenes [defaultScene] 2 (-10) =
      .ok [{ numero := 1, timingStart := 0, timingEnd := -5,
             naracao := "", visual := "", duracao := some (-5) },
           { numero := 2, timingStart := -5, timingEnd := -10,
             naracao := "", visual := "", duracao := some (-5) }] := by
  intro original_scenes audio_duration target_count
  refine ⟨fun hneg => ?_, fun hne => ?_, ?_, ?_⟩
  · have h0 : (0 : Int) ≤ original_scenes.length := Int.natCast_nonneg _
    rw [redistribute_scenes, if_neg (by omega), if_neg (by omega)]
    have ht : target_count.toNat = 0 := Int.toNat_of_nonpos (le_of_lt hneg)
    rw [ht]
    rfl
  · have hpos : 0 < original_scenes.length := List.length_pos.mpr hne
    rw [redistribute_scenes, if_neg (by omega), if_pos rfl]
  · rw [redistribute_scenes, if_pos (by simp)]
  · rw [redistribute_scenes_eq_map _ _ _ (by decide) (by decide) (by decide)]
    have hr : List.range (Int.toNat 2) = [0, 1] := rfl
    rw [hr]
    simp only [List.map_cons, List.map_nil, redistributedScene, defaultScene]
    norm_num [pyInt, List.getD, Int.ceil_eq_iff]

/-- Witness for the hypotheses of the C6 amended theorem. -/
theorem C6_redistribute_no_validation_witness :
    redistribute_scenes [defaultScene] (-2) 7 = .ok [] ∧
    redistribute_scenes [defaultScene] 0 7 = .error .zeroDivision :=
  ⟨(C6_redistribute_no_validation [defaultScene] 7 (-2)).1 (by decide),
   (C6_redistribute_no_validation [defaultScene] 7 0).2.1 (by decide)⟩

/-- C9: `calculate_optimal_scenes` is the claimed step function (with
`floor` in place of Python truncation, valid on the positive branch
arguments), and takes the claimed values at 30, 30.0001 and 125. -/
theorem C9_calculate_optimal_scenes_step :
    (∀ d : ℚ, calculate_optimal_scenes d =
      if d ≤ 30 then 2
      else if d ≤ 60 then max 3 ⌊d / 15⌋
      else if d ≤ 120 then max 5 ⌊d / 12⌋
      else max 8 ⌊d / 10⌋) ∧
    calculate_optimal_scenes 30 = 2 ∧
    calculate_optimal_scenes (300001 / 10000) = 3 ∧
    calculate_optimal_scenes 125 = 12 := by
  have key : ∀ d : ℚ, calculate_optimal_scenes d =
      if d ≤ 30 then 2
      else if d ≤ 60 then max 3 ⌊d / 15⌋
      else if d ≤ 120 then max 5 ⌊d / 12⌋
      else max 8 ⌊d / 10⌋ := by
    intro d
    by_cases h1 : d ≤ 30
    · simp [calculate_optimal_scenes, h1]
    · have hd : (0 : ℚ) ≤ d := le_of_lt (lt_trans (by norm_num) (not_le.mp h1))
      by_cases h2 : d ≤ 60
      · have hp : pyInt (d / 15) = ⌊d / 15⌋ :=
          pyInt_of_nonneg (div_nonneg hd (by norm_num))
        simp [calculate_optimal_scenes, h1, h2, hp]
      · by_cases h3 : d ≤ 120
        · have hp : pyInt (d / 12) = ⌊d / 12⌋ :=
            pyInt_of_nonneg (div_nonneg hd (by norm_num))
          simp [calculate_optimal_scenes, h1, h2, h3, hp]
        · have hp : pyInt (d / 10) = ⌊d / 10⌋ :=
            pyInt_of_nonneg (div_nonneg hd (by norm_num))
          simp [calculate_optimal_scenes, h1, h2, h3, hp]
  refine ⟨key, ?_, ?_, ?_⟩
  · rw [key]
    norm_num
  · rw [key]
    have hf : ⌊(300001 / 10000 : ℚ) / 15⌋ = 2 := by norm_num
    rw [if_neg (by norm_num), if_pos (by norm_num), hf]
    decide
  · rw [key]
    have hf : ⌊(125 : ℚ) / 10⌋ = 12 := by norm_num
    rw [if_neg (by norm_num), if_neg (by norm_num), if_neg (by norm_num), hf]
    decide

/-- The span properties claimed for a redistributed scene list: `k` scenes,
floor boundaries `[floor(j*D/k), floor((j+1)*D/k))`, contiguity, start at
0, final end at most `D`. -/
def redistributeSpansOk (scenes : List Scene) (target_count : Int)
    (audio_duration : ℚ) : Prop :=
  (scenes.length : Int) = target_count ∧
  (∀ j : Nat, ∀ hj : j < scenes.length,
    (scenes.get ⟨j, hj⟩).timingStart = ⌊(j : ℚ) * audio_duration / (target_count : ℚ)⌋ ∧
    (scenes.get ⟨j, hj⟩).timingEnd = ⌊((j : ℚ) + 1) * audio_duration / (target_count : ℚ)⌋) ∧
  (∀ j : Nat, ∀ hj : j + 1 < scenes.length,
    (scenes.get ⟨j, Nat.lt_of_succ_lt hj⟩).timingEnd = (scenes.get ⟨j + 1, hj⟩).timingStart) ∧
  (∀ hs : 0 < scenes.length, (scenes.get ⟨0, hs⟩).timingStart = 0) ∧
  (∀ hs : scenes ≠ [], ((scenes.getLast hs).timingEnd : ℚ) ≤ audio_duration)

/-- C1: on a non-empty original list, a target `k ≥ 1` different from the
original count, and a positive duration `D`, `redistribute_scenes` returns
exactly `k` scenes with floor-boundary spans `[⌊j*D/k⌋, ⌊(j+1)*D/k⌋)`,
contiguous, starting at 0, final end at most `D`. -/
theorem C1_redistribute_floor_partition (original_scenes : List Scene)
    (target_count : Int) (audio_duration : ℚ) (hne : original_scenes ≠ [])
    (hk : 1 ≤ target_count) (hlen : (original_scenes.length : Int) ≠ target_count)
    (hD : 0 < audio_duration) :
    ∃ scenes,
      redistribute_scenes original_scenes target_count audio_duration = .ok scenes ∧
      redistributeSpansOk scenes target_count audio_duration := by
  have hk0 : (0 : ℚ) < (target_count : ℚ) := by
    exact_mod_cast (by omega : (0 : Int) < target_count)
  have htn : (1 : Nat) ≤ target_count.toNat := by omega
  refine ⟨_, redistribute_scenes_eq_map _ _ _ hne hk hlen, ?_, ?_, ?_, ?_, ?_⟩
  · simp only [List.length_map, List.length_range]
    omega
  · intro j hj
    simp only [List.length_map, List.length_range] at hj
    simp only [List.get_eq_getElem, List.getElem_map, List.getElem_range,
               redistributedScene]
    constructor
    · rw [pyInt_of_nonneg (mul_nonneg (Nat.cast_nonneg j)
            (div_nonneg hD.le hk0.le)), mul_div_assoc]
    · rw [pyInt_of_nonneg (mul_nonneg (by positivity)
            (div_nonneg hD.le hk0.le)), mul_div_assoc]
  · intro j hj
    simp only [List.length_map, List.length_range] at hj
    simp only [List.get_eq_getElem, List.getElem_map, List.getElem_range,
               redistributedScene]
    rw [pyInt_of_nonneg (mul_nonneg (by positivity) (div_nonneg hD.le hk0.le)),
        pyInt_of_nonneg (mul_nonneg (Nat.cast_nonneg _) (div_nonneg hD.le hk0.le))]
    push_cast
    ring_nf
  · intro hs
    simp only [List.get_eq_getElem, List.getElem_map, List.getElem_range,
               redistributedScene]
    rw [pyInt_of_nonneg (by norm_num)]
    norm_num
  · intro hs
    rw [List.getLast_eq_getElem]
    simp only [List.length_map, List.length_range, List.getElem_map,
               List.getElem_range, redistributedScene]
    have hcast : ((target_count.toNat - 1 : Nat) : ℚ) + 1 = (target_count : ℚ) := by
      have h1 : ((target_count.toNat : Nat) : ℚ) = (target_count : ℚ) := by
        exact_mod_cast Int.toNat_of_nonneg (by omega : (0 : Int) ≤ target_count)
      rw [Nat.cast_sub htn, h1]
      ring
    rw [pyInt_of_nonneg (mul_nonneg (by positivity) (div_nonneg hD.le hk0.le))]
    rw [hcast]
    have hmc : (target_count : ℚ) * (audio_duration / (target_count : ℚ)) =
        audio_duration := by
      field_simp
    rw [hmc]
    exact Int.floor_le audio_duration

/-- Witness for C1 at a concrete input. -/
theorem C1_redistribute_floor_partition_witness :
    (([defaultScene] : List Scene) ≠ [] ∧ (1 : Int) ≤ 2 ∧
      (([defaultScene].length : Int) ≠ 2) ∧ (0 : ℚ) < 10) ∧
    (∃ scenes, redistribute_scenes [defaultScene] 2 10 = .ok scenes ∧
      redistributeSpansOk scenes 2 10) :=
  ⟨⟨by decide, by decide, by decide, by norm_num⟩,
   C1_redistribute_floor_partition [defaultScene] 2 10
     (by decide) (by decide) (by decide) (by norm_num)⟩

lemma splitLinesGo_mem (max_chars : Nat) (W : List String) :
    ∀ (words : List String) (current_line : String) (lines : List String),
      (∀ w ∈ words, w ∈ W) →
      (current_line = "" ∨ current_line.length ≤ max_chars ∨ current_line ∈ W) →
      (∀ l ∈ lines, l.length ≤ max_chars ∨ l ∈ W) →
      ∀ line ∈ splitLinesGo max_chars words current_line lines,
        line.length ≤ max_chars ∨ line ∈ W := by
  intro words
  induction words with
  | nil =>
    intro cur lines _ hcur hacc line hline
    simp only [splitLinesGo] at hline
    by_cases hc : cur = ""
    · rw [if_pos hc] at hline
      exact hacc line hline
    · rw [if_neg hc] at hline
      rcases List.mem_append.mp hline with h | h
      · exact hacc line h
      · have he : line = cur := by simpa using h
        subst he
        rcases hcur with h0 | h0 | h0
        · exact absurd h0 hc
        · exact Or.inl h0
        · exact Or.inr h0
  | cons w ws ih =>
    intro cur lines hws hcur hacc line hline
    have hwW : w ∈ W := hws w (by simp)
    have hwsW : ∀ x ∈ ws, x ∈ W := fun x hx => hws x (by simp [hx])
    simp only [splitLinesGo] at hline
    by_cases h1 : cur.length + w.length + 1 ≤ max_chars
    · rw [if_pos h1] at hline
      by_cases hc : cur = ""
      · rw [if_pos hc] at hline
        exact ih w lines hwsW (Or.inr (Or.inr hwW)) hacc line hline
      · rw [if_neg hc] at hline
        refine ih (cur ++ " " ++ w) lines hwsW (Or.inr (Or.inl ?_)) hacc line hline
        have hl : (cur ++ " " ++ w).length = cur.length + 1 + w.length := by
          rw [String.length_append, String.length_append]
          rfl
        omega
    · rw [if_neg h1] at hline
      by_cases hc : cur = ""
      · rw [if_pos hc] at hline
        exact ih w lines hwsW (Or.inr (Or.inr hwW)) hacc line hline
      · rw [if_neg hc] at hline
        refine ih w (lines ++ [cur]) hwsW (Or.inr (Or.inr hwW)) ?_ line hline
        intro l hl
        rcases List.mem_append.mp hl with h | h
        · exact hacc l h
        · have he : l = cur := by simpa using h
          subst he
          rcases hcur with h0 | h0 | h0
          · exact absurd h0 hc
          · exact Or.inl h0
          · exact Or.inr h0

/-- C4: a line produced by `split_text_into_lines` that is longer than
`max_chars` is one single word of the input text (an element of
`text.split()`), hence placed alone and never split mid-word; every other
line is at most `max_chars` characters long. -/
theorem C4_split_lines_width (text : String) (max_chars : Nat) (line : String)
    (hmem : line ∈ split_text_into_lines text max_chars)
    (hlong : max_chars < line.length) : line ∈ pySplit text := by
  have h := splitLinesGo_mem max_chars (pySplit text) (pySplit text) "" []
    (fun w hw => hw) (Or.inl rfl) (by simp) line hmem
  rcases h with h | h
  · omega
  · exact h

/-- Witness for C4 at a concrete input: a 4-character word with
`max_chars = 2` survives whole as its own line. -/
theorem C4_split_lines_width_witness : "abcd" ∈ pySplit "abcd" :=
  C4_split_lines_width "abcd" 2 "abcd" (by decide) (by decide)

/-- Is this line a scene heading? -/
def isHeading : Line → Bool
  | .heading _ _ _ => true
  | _ => false

/-- A well-formed scene block: its heading data and its body lines. -/
def blockLines (b : (Nat × Nat × Nat) × List Line) : List Line :=
  Line.heading b.1.1 b.1.2.1 b.1.2.2 :: b.2

/-- The `(index, start, end)` triple of a parsed scene. -/
def sceneKey (c : TScene) : Nat × Nat × Nat :=
  (c.numero, c.start_seconds, c.end_seconds)

lemma extractGo_body (body : List Line) (rest : List Line) (c : TScene)
    (h : ∀ l ∈ body, isHeading l = false) :
    ∃ t, extractGo (body ++ rest) (some c) =
      extractGo rest (some { c with naracao := t }) := by
  induction body generalizing c with
  | nil =>
    refine ⟨c.naracao, ?_⟩
    have hc : { c with naracao := c.naracao } = c := by
      cases c
      rfl
    rw [hc, List.nil_append]
  | cons l ls ih =>
    cases l with
    | heading n s e =>
      have hh := h (Line.heading n s e) (List.mem_cons_self _ _)
      simp [isHeading] at hh
    | narration t1 =>
      obtain ⟨t2, ht2⟩ := ih (fun x hx => h x (by simp [hx])) (c := { c with naracao := t1 })
      exact ⟨t2, by simpa [extractGo] using ht2⟩
    | other =>
      obtain ⟨t2, ht2⟩ := ih (fun x hx => h x (by simp [hx])) (c := c)
      exact ⟨t2, by simpa [extractGo] using ht2⟩

lemma extractGo_blocks (blocks : List ((Nat × Nat × Nat) × List Line))
    (h : ∀ b ∈ blocks, ∀ l ∈ b.2, isHeading l = false) :
    ∀ c : TScene,
      (extractGo ((blocks.map blockLines).flatten) (some c)).map sceneKey =
        sceneKey c :: blocks.map (fun b => b.1) := by
  induction blocks with
  | nil =>
    intro c
    simp [extractGo]
  | cons b bs ih =>
    intro c
    obtain ⟨⟨n, s, e⟩, body⟩ := b
    simp only [List.map_cons, List.flatten_cons, blockLines, List.cons_append]
    rw [show extractGo
          (Line.heading n s e :: (body ++ (bs.map blockLines).flatten)) (some c) =
        c :: extractGo (body ++ (bs.map blockLines).flatten) (some ⟨n, s, e, ""⟩)
      from by simp [extractGo]]
    obtain ⟨t, ht⟩ := extractGo_body body ((bs.map blockLines).flatten) ⟨n, s, e, ""⟩
      (fun l hl => h ((n, s, e), body) (List.mem_cons_self _ _) l hl)
    rw [List.map_cons, ht,
        ih (fun x hx => h x (by simp [hx]))]
    rfl

/-- C5: on a document made of N well-formed scene blocks (a heading line
followed by body lines none of which is a heading), the parser emits
exactly N scene records in document order with the heading's
`(index, start, end)` correctly extracted — including the final block,
which no later heading closes. -/
theorem C5_parser_extracts_blocks (blocks : List ((Nat × Nat × Nat) × List Line))
    (h : ∀ b ∈ blocks, ∀ l ∈ b.2, isHeading l = false) :
    (extract_scenes_with_timing ((blocks.map blockLines).flatten)).map sceneKey =
      blocks.map (fun b => b.1) ∧
    (extract_scenes_with_timing ((blocks.map blockLines).flatten)).length =
      blocks.length := by
  have hmain : (extract_scenes_with_timing ((blocks.map blockLines).flatten)).map
      sceneKey = blocks.map (fun b => b.1) := by
    cases blocks with
    | nil => rfl
    | cons b bs =>
      obtain ⟨⟨n, s, e⟩, body⟩ := b
      simp only [extract_scenes_with_timing, List.map_cons, List.flatten_cons,
                 blockLines, List.cons_append]
      rw [show extractGo
            (Line.heading n s e :: (body ++ (bs.map blockLines).flatten)) none =
          extractGo (body ++ (bs.map blockLines).flatten) (some ⟨n, s, e, ""⟩)
        from by simp [extractGo]]
      obtain ⟨t, ht⟩ := extractGo_body body ((bs.map blockLines).flatten) ⟨n, s, e, ""⟩
        (fun l hl => h ((n, s, e), body) (List.mem_cons_self _ _) l hl)
      rw [ht, extractGo_blocks bs (fun x hx => h x (by simp [hx]))]
      rfl
  refine ⟨hmain, ?_⟩
  have := congrArg List.length hmain
  simpa using this

/-- A concrete two-block document for the C5 witness. -/
def blocksC5 : List ((Nat × Nat × Nat) × List Line) :=
  [((1, 0, 5), [Line.narration "ola", Line.other]),
   ((2, 5, 9), [Line.narration "tchau"])]

/-- Witness for C5 at a concrete two-block document. -/
theorem C5_parser_extracts_blocks_witness :
    (extract_scenes_with_timing ((blocksC5.map blockLines).flatten)).map sceneKey =
      [(1, 0, 5), (2, 5, 9)] :=
  ((C5_parser_extracts_blocks blocksC5 (by decide)).1).trans (by decide)

/-- A default cue, used only as the unused fallback of `List.getD`. -/
def defaultCue : Cue := { num := 0, lineStart := 0, lineEnd := 0, text := "" }

/-- The span properties claimed for the cues of one scene: one cue per
line in source order, equal-length contiguous sub-intervals
`[s + j*(e-s)/n, s + (j+1)*(e-s)/n)` whose union is exactly `[s, e)`. -/
def cueSpanSpec (cues : List Cue) (lines : List String) (s e : ℚ) : Prop :=
  cues.length = lines.length ∧
  (∀ j : Nat, j < cues.length →
    (cues.getD j defaultCue).lineStart =
      s + (j : ℚ) * ((e - s) / (lines.length : ℚ)) ∧
    (cues.getD j defaultCue).lineEnd =
      s + ((j : ℚ) + 1) * ((e - s) / (lines.length : ℚ)) ∧
    (cues.getD j defaultCue).lineEnd - (cues.getD j defaultCue).lineStart =
      (e - s) / (lines.length : ℚ) ∧
    (cues.getD j defaultCue).text = lines.getD j "") ∧
  (∀ j : Nat, j + 1 < cues.length →
    (cues.getD j defaultCue).lineEnd = (cues.getD (j + 1) defaultCue).lineStart) ∧
  (0 < cues.length →
    (cues.getD 0 defaultCue).lineStart = s ∧
    (cues.getD (cues.length - 1) defaultCue).lineEnd = e)

/-- C2: for a scene whose narration splits into `n ≥ 1` lines, the cues of
that scene divide its span `[s, e)` into `n` equal-length contiguous
sub-intervals in source order, covering it exactly. -/
theorem C2_subtitle_line_spans (i : Nat) (scene : TScene)
    (h : 0 < (split_text_into_lines scene.naracao).length) :
    cueSpanSpec (sceneCues i scene) (split_text_into_lines scene.naracao)
      (scene.start_seconds : ℚ) (scene.end_seconds : ℚ) := by
  have hn0 : ((split_text_into_lines scene.naracao).length : ℚ) ≠ 0 := by
    exact_mod_cast Nat.pos_iff_ne_zero.mp h
  have hcues : sceneCues i scene =
      (split_text_into_lines scene.naracao).enum.map (fun jl =>
        { num := i * 10 + jl.1
          lineStart := (scene.start_seconds : ℚ) + (jl.1 : ℚ) *
            (((scene.end_seconds : ℚ) - (scene.start_seconds : ℚ)) /
              ((split_text_into_lines scene.naracao).length : ℚ))
          lineEnd := (scene.start_seconds : ℚ) + ((jl.1 : ℚ) + 1) *
            (((scene.end_seconds : ℚ) - (scene.start_seconds : ℚ)) /
              ((split_text_into_lines scene.naracao).length : ℚ))
          text := jl.2 }) := by
    simp only [sceneCues]
    rw [if_pos h]
  have hlen : (sceneCues i scene).length =
      (split_text_into_lines scene.naracao).length := by
    rw [hcues]
    simp [List.enum_length]
  have hget : ∀ j : Nat, j < (sceneCues i scene).length →
      (sceneCues i scene).getD j defaultCue =
        { num := i * 10 + j
          lineStart := (scene.start_seconds : ℚ) + (j : ℚ) *
            (((scene.end_seconds : ℚ) - (scene.start_seconds : ℚ)) /
              ((split_text_into_lines scene.naracao).length : ℚ))
          lineEnd := (scene.start_seconds : ℚ) + ((j : ℚ) + 1) *
            (((scene.end_seconds : ℚ) - (scene.start_seconds : ℚ)) /
              ((split_text_into_lines scene.naracao).length : ℚ))
          text := (split_text_into_lines scene.naracao).getD j "" } := by
    intro j hj
    have hj2 : j < (split_text_into_lines scene.naracao).length := hlen ▸ hj
    rw [hcues] at hj ⊢
    rw [List.getD_eq_getElem _ _ hj]
    simp only [List.getElem_map, List.getElem_enum]
    rw [List.getD_eq_getElem _ _ hj2]
  refine ⟨hlen, ?_, ?_, ?_⟩
  · intro j hj
    rw [hget j hj]
    refine ⟨rfl, rfl, ?_, rfl⟩
    ring
  · intro j hj
    rw [hget j (Nat.lt_of_succ_lt hj), hget (j + 1) hj]
    push_cast
    ring
  · intro hpos
    have h1 : (sceneCues i scene).length - 1 < (sceneCues i scene).length := by
      omega
    rw [hget 0 hpos, hget _ h1]
    constructor
    · norm_num
    · have hc : (((sceneCues i scene).length - 1 : Nat) : ℚ) + 1 =
          ((split_text_into_lines scene.naracao).length : ℚ) := by
        rw [hlen]
        rw [Nat.cast_sub (by omega : 1 ≤ (split_text_into_lines scene.naracao).length)]
        ring
      rw [hc]
      field_simp
  
/-- A concrete scene for the C2 witness: narration "ola mundo" fits on a
single line, scene span [2, 10). -/
def sceneC2 : TScene := { numero := 1, start_seconds := 2, end_seconds := 10,
                          naracao := "ola mundo" }

/-- Witness for C2 at a concrete scene. -/
theorem C2_subtitle_line_spans_witness :
    cueSpanSpec (sceneCues 1 sceneC2) (split_text_into_lines sceneC2.naracao)
      (sceneC2.start_seconds : ℚ) (sceneC2.end_seconds : ℚ) :=
  C2_subtitle_line_spans 1 sceneC2 (by decide)

/-- A 21-character word: two of them never fit on one 42-character line,
while a single one does, so each occurrence becomes its own line. -/
def word21 : String := "abcdefghijklmnopqrstu"

/-- A narration of ten 21-character words: exactly ten subtitle lines. -/
def narrTen : String :=
  word21 ++ " " ++ word21 ++ " " ++ word21 ++ " " ++ word21 ++ " " ++ word21 ++ " " ++
  word21 ++ " " ++ word21 ++ " " ++ word21 ++ " " ++ word21 ++ " " ++ word21

/-- A narration of eleven 21-character words: exactly eleven subtitle
lines. -/
def narrEleven : String := narrTen ++ " " ++ word21

/-- Two scenes, the first with a ten-line narration. -/
def docTen : List TScene :=
  [{ numero := 1, start_seconds := 0, end_seconds := 20, naracao := narrTen },
   { numero := 2, start_seconds := 20, end_seconds := 25, naracao := "ola" }]

/-- Two scenes, the first with an eleven-line narration. -/
def docEleven : List TScene :=
  [{ numero := 1, start_seconds := 0, end_seconds := 22, naracao := narrEleven },
   { numero := 2, start_seconds := 22, end_seconds := 25, naracao := "ola" }]

/-- C8 counterexample: the claim states the sequence numbers stop being
globally unique and strictly monotonic "once a scene has >= 10 lines";
but with a scene of exactly 10 lines followed by another scene the
numbers are 10..19, 20 — pairwise distinct and strictly increasing. -/
theorem C8_counterexample_ten_lines :
    (split_text_into_lines narrTen).length = 10 ∧
    (create_subtitles_cues docTen).map Cue.num =
      [10, 11, 12, 13, 14, 15, 16, 17, 18, 19, 20] ∧
    List.Pairwise (· < ·) ((create_subtitles_cues docTen).map Cue.num) := by
  refine ⟨by decide, by decide, by decide⟩

/-- C8 amended: line `j` (0-based) of the scene in 1-based processing
position `i` receives cue number `i*10 + j`; the numbers fail to be
globally unique and strictly monotonic once a non-final scene has at
least 11 lines (not 10): an 11-line first scene yields 10..20 followed by
20 again for the next scene. -/
theorem C8_sequence_numbers :
    (∀ (i : Nat) (scene : TScene) (j : Nat),
      j < (sceneCues i scene).length →
      ((sceneCues i scene).getD j defaultCue).num = i * 10 + j) ∧
    (split_text_into_lines narrEleven).length = 11 ∧
    (create_subtitles_cues docEleven).map Cue.num =
      [10, 11, 12, 13, 14, 15, 16, 17, 18, 19, 20, 20] ∧
    ¬ ((create_subtitles_cues docEleven).map Cue.num).Nodup ∧
    ¬ List.Pairwise (· < ·) ((create_subtitles_cues docEleven).map Cue.num) := by
  refine ⟨?_, by decide, by decide, by decide, by decide⟩
  intro i scene j hj
  by_cases hL : 0 < (split_text_into_lines scene.naracao).length
  · simp only [sceneCues, if_pos hL] at hj ⊢
    rw [List.getD_eq_getElem _ _ hj]
    simp [List.getElem_map, List.getElem_enum]
  · simp only [sceneCues, if_neg hL] at hj
    simp at hj

/-- Witness for the hypothesis of the C8 amended theorem. -/
theorem C8_sequence_numbers_witness :
    ((sceneCues 3 sceneC2).getD 0 defaultCue).num = 3 * 10 + 0 :=
  C8_sequence_numbers.1 3 sceneC2 0 (by decide)

lemma pyInt_intCast (n : Int) : pyInt ((n : Int) : ℚ) = n := by
  by_cases h : (0 : ℚ) ≤ ((n : Int) : ℚ)
  · simp [pyInt, h, Int.floor_intCast]
  · simp [pyInt, h, Int.ceil_intCast]

lemma pyFmt0_neg (width : Nat) (n : Int) (h : n < 0) :
    ∃ t, pyFmt0 width n = "-" ++ t := by
  refine ⟨String.mk (List.replicate (width - ((toString n.natAbs).length + 1)) '0') ++
    toString n.natAbs, ?_⟩
  simp only [pyFmt0, if_pos h]
  rw [String.append_assoc]
  rfl

/-- C7 counterexample: the claim says negative seconds are rejected with a
validation failure; in fact all three conversions are total and return a
string with a negative hours field, e.g. at -1.5 seconds. -/
theorem C7_counterexample_negative_accepted :
    format_srt_time (-3 / 2) = "-1:59:58,500" ∧
    format_vtt_time (-3 / 2) = "-1:59:58.500" ∧
    timestamp_to_srt_time (-3 / 2) = "-1:59:58,500" := by
  have hh : pyInt (pyFloorDiv (-3 / 2 : ℚ) 3600) = -1 := by
    norm_num [pyInt, pyFloorDiv, Int.ceil_eq_iff]
  have hm : pyInt (pyFloorDiv (pymod (-3 / 2 : ℚ) 3600) 60) = 59 := by
    norm_num [pyInt, pyFloorDiv, pymod]
  have hs : pyInt (pymod (-3 / 2 : ℚ) 60) = 58 := by
    norm_num [pyInt, pymod]
  have hms : pyInt (pymod (-3 / 2 : ℚ) 1 * 1000) = 500 := by
    norm_num [pyInt, pymod]
  refine ⟨?_, ?_, ?_⟩ <;>
    · simp only [format_srt_time, format_vtt_time, timestamp_to_srt_time,
                 hh, hm, hs, hms]
      decide

/-- C7 amended: negative seconds are not rejected; each conversion returns
a (malformed) clock string beginning with a minus sign, its hours field
being the negative `floor(seconds/3600)` while the remaining fields use
Python's non-negative modulo. -/
theorem C7_negative_not_rejected (seconds : ℚ) (h : seconds < 0) :
    (∃ t, format_srt_time seconds = "-" ++ t) ∧
    (∃ t, format_vtt_time seconds = "-" ++ t) ∧
    (∃ t, timestamp_to_srt_time seconds = "-" ++ t) := by
  have hq : seconds / 3600 < 0 := div_neg_of_neg_of_pos h (by norm_num)
  have hf : ⌊seconds / 3600⌋ < 0 := by
    rw [Int.floor_lt]
    exact_mod_cast hq
  have hours_neg : pyInt (pyFloorDiv seconds 3600) < 0 := by
    rw [pyFloorDiv, pyInt_intCast]
    exact hf
  have main : ∀ n : Int, n < 0 → ∀ b c d e f g : String,
      ∃ t, pyFmt0 2 n ++ b ++ c ++ d ++ e ++ f ++ g = "-" ++ t := by
    intro n hn b c d e f g
    obtain ⟨t0, ht0⟩ := pyFmt0_neg 2 n hn
    refine ⟨t0 ++ b ++ c ++ d ++ e ++ f ++ g, ?_⟩
    rw [ht0]
    simp only [String.append_assoc]
  refine ⟨?_, ?_, ?_⟩
  · simp only [format_srt_time]
    exact main _ hours_neg _ _ _ _ _ _
  · simp only [format_vtt_time]
    exact main _ hours_neg _ _ _ _ _ _
  · simp only [timestamp_to_srt_time]
    exact main _ hours_neg _ _ _ _ _ _

/-- Witness for the hypothesis of the C7 amended theorem. -/
theorem C7_negative_not_rejected_witness :
    (∃ t, format_srt_time (-3 / 2) = "-" ++ t) ∧
    (∃ t, format_vtt_time (-3 / 2) = "-" ++ t) ∧
    (∃ t, timestamp_to_srt_time (-3 / 2) = "-" ++ t) :=
  C7_negative_not_rejected (-3 / 2) (by norm_num)
